import Mathlib

/-!
Shallow embedding of the Konipa B2B portal core handlers
(src/server/src/handlers/pricing.ts, orders.ts, transfers.ts and the
zod schemas of src/server/src/schema.ts) together with proofs about the
pricing resolver, the order/quote total calculator, the monthly
stock-limit validator and the inter-warehouse transfer workflow.

Database rows are modelled as lists of records; a `select ... limit 1`
becomes `List.find?`, an SQL `update ... where` becomes a `List.map`
that rewrites the matching rows, and a thrown `Error` becomes
`Except.error`.  Decimal (numeric) columns are modelled as `Rat`.
All throws in the modelled handlers happen before the first write of
that handler, so representing a handler as a pure function returning
`Except Err (DB × result)` is faithful to the JavaScript source.
-/

namespace Konipa

/-- Warehouse enum from schema.ts (warehouseSchema). -/
inductive Warehouse
  | ibn_tachfine
  | drb_omar
  | la_villette
deriving DecidableEq, Repr

/-- Transfer request status enum from schema.ts (transferStatusSchema). -/
inductive TransferStatus
  | pending
  | in_preparation
  | ready_to_ship
  | shipped
  | received
  | cancelled
deriving DecidableEq, Repr

/-- Error taxonomy of spec section 7: a NotFound error for missing or
inactive referenced rows, and a PreconditionFailed error for an illegal
state.  In the source both are `throw new Error(msg)`; the constructor
records which kind of check produced the message. -/
inductive Err
  | notFound (msg : String)
  | precondition (msg : String)
deriving DecidableEq, Repr

/-- A product row (productsTable): id, numeric base price, active flag. -/
structure Product where
  pid : Nat
  base_price : Rat
  is_active : Bool
deriving DecidableEq, Repr

/-- A client_product_pricing row: custom price, discount percentage and
optional monthly stock limit for one (client, product) pair. -/
structure PricingRow where
  client_id : Nat
  product_id : Nat
  custom_price : Rat
  discount_percentage : Rat
  stock_limit_monthly : Option Nat
deriving DecidableEq, Repr

/-- A stock row (stockTable): serial id, product, warehouse, integer
quantity. -/
structure StockRow where
  sid : Nat
  product_id : Nat
  warehouse : Warehouse
  quantity : Int
deriving DecidableEq, Repr

/-- A transfer_requests row with every column the handlers touch. -/
structure TransferRequest where
  id : Nat
  order_id : Nat
  product_id : Nat
  from_warehouse : Warehouse
  to_warehouse : Warehouse
  quantity_requested : Nat
  quantity_prepared : Nat
  status : TransferStatus
  requested_by : Nat
  prepared_by : Option Nat
  received_by : Option Nat
  requested_at : Int
  prepared_at : Option Int
  received_at : Option Int
  created_at : Int
  updated_at : Int
deriving DecidableEq, Repr

/-- An orders row, reduced to the columns the stock-limit validator
joins on. -/
structure OrderRow where
  id : Nat
  client_id : Nat
  created_at : Int
deriving DecidableEq, Repr

/-- An order_items row, reduced to the columns the stock-limit
validator sums over. -/
structure OrderItemRow where
  order_id : Nat
  product_id : Nat
  quantity : Nat
deriving DecidableEq, Repr

/-- The relational store: one list per table, plus the next serial id
for stock inserts.  Clients and users are modelled by their ids only,
since the handlers only check existence. -/
structure DB where
  clients : List Nat
  users : List Nat
  products : List Product
  pricing : List PricingRow
  stocks : List StockRow
  nextStockId : Nat
  transfers : List TransferRequest
  orders : List OrderRow
  orderItems : List OrderItemRow
deriving DecidableEq, Repr

/-- select from clients where id = clientId limit 1, reduced to a
Boolean existence check. -/
def clientExists (db : DB) (clientId : Nat) : Bool :=
  db.clients.contains clientId

/-- select from users where id = userId limit 1, reduced to a Boolean
existence check. -/
def userExists (db : DB) (userId : Nat) : Bool :=
  db.users.contains userId

/-- select from products where id = productId limit 1 — the lookup used
by calculateOrderTotal (pricing.ts), which does NOT filter on
is_active. -/
def findProduct (db : DB) (productId : Nat) : Option Product :=
  db.products.find? (fun p => decide (p.pid = productId))

/-- getProductById from the products handler: select where id =
productId AND is_active = true. -/
def getProductById (db : DB) (productId : Nat) : Option Product :=
  db.products.find? (fun p => decide (p.pid = productId ∧ p.is_active = true))

/-- select from client_product_pricing where client_id = clientId and
product_id = productId limit 1. -/
def findPricing (db : DB) (clientId productId : Nat) : Option PricingRow :=
  db.pricing.find? (fun r => decide (r.client_id = clientId ∧ r.product_id = productId))

/-- The stock predicate: product and warehouse both match. -/
def pwPred (productId : Nat) (w : Warehouse) (r : StockRow) : Bool :=
  decide (r.product_id = productId ∧ r.warehouse = w)

/-- select from stock where product_id = productId and warehouse = w,
first row. -/
def findStockL (l : List StockRow) (productId : Nat) (w : Warehouse) : Option StockRow :=
  l.find? (pwPred productId w)

/-- Stock lookup against the full store. -/
def findStock (db : DB) (productId : Nat) (w : Warehouse) : Option StockRow :=
  findStockL db.stocks productId w

/-- The quantity currently recorded for (product, warehouse), if a row
exists. -/
def stockQty (db : DB) (productId : Nat) (w : Warehouse) : Option Int :=
  (findStock db productId w).map (fun s => s.quantity)

/-- select from transfer_requests where id = transferId, first row. -/
def findTransfer (db : DB) (transferId : Nat) : Option TransferRequest :=
  db.transfers.find? (fun t => decide (t.id = transferId))

/-- update stock set quantity = q where id = sid, as a row rewrite. -/
def setQty (sid : Nat) (q : Int) (r : StockRow) : StockRow :=
  if r.sid = sid then { r with quantity := q } else r

/-- Apply `setQty` across the whole table (the drizzle update by id). -/
def setStockQuantity (l : List StockRow) (sid : Nat) (q : Int) : List StockRow :=
  l.map (setQty sid q)

/-- Result record of getProductPriceForClient. -/
structure PriceResult where
  basePrice : Rat
  customPrice : Option Rat
  discountPercentage : Option Rat
  finalPrice : Rat
deriving DecidableEq, Repr

/-- getProductPriceForClient from orders.ts: the product must exist and
be active; when a pricing row exists the final price is the custom
price of that row (no positivity check and no discount application),
otherwise the base price. -/
def getProductPriceForClient (db : DB) (productId clientId : Nat) :
    Except Err PriceResult :=
  match getProductById db productId with
  | none => .error (.notFound "Product not found or inactive")
  | some product =>
    match findPricing db clientId productId with
    | some pricing =>
        .ok {
              basePrice := product.base_price,
              customPrice := some pricing.custom_price,
              discountPercentage := some pricing.discount_percentage,
              finalPrice := pricing.custom_price }
    | none =>
        .ok {
              basePrice := product.base_price,
              customPrice := none,
              discountPercentage := none,
              finalPrice := product.base_price }

/-- One priced line of calculateOrderTotal. -/
structure CalculatedItem where
  productId : Nat
  quantity : Nat
  basePrice : Rat
  customPrice : Option Rat
  discountPercentage : Option Rat
  finalPrice : Rat
  totalPrice : Rat
deriving DecidableEq, Repr

/-- JavaScript Math.round on a rational: floor of x + 1/2. -/
def jsRound (x : Rat) : Int :=
  Int.floor (x + 1/2)

/-- Math.round(x * 100) / 100 — rounding to two decimal places. -/
def round2 (x : Rat) : Rat :=
  (jsRound (x * 100) : Rat) / 100

/-- One iteration of the calculateOrderTotal loop (pricing.ts): look up
the product (existence only), then the pricing row; a positive custom
price wins, else a positive discount is applied to the base price,
else the base price stands. -/
def calcLine (db : DB) (clientId : Nat) (item : Nat × Nat) :
    Except Err CalculatedItem :=
  match findProduct db item.1 with
  | none => .error (.notFound "Product not found")
  | some product =>
    let basePrice := product.base_price
    match findPricing db clientId item.1 with
    | some cp =>
        let customPrice := cp.custom_price
        let discountPercentage := cp.discount_percentage
        let finalPrice :=
          if 0 < customPrice then customPrice
          else if 0 < discountPercentage then basePrice * (1 - discountPercentage / 100)
          else basePrice
        .ok {
              productId := item.1, quantity := item.2, basePrice := basePrice,
              customPrice := some customPrice,
              discountPercentage := some discountPercentage,
              finalPrice := finalPrice,
              totalPrice := finalPrice * (item.2 : Rat) }
    | none =>
        .ok {
              productId := item.1, quantity := item.2, basePrice := basePrice,
              customPrice := none,
              discountPercentage := none,
              finalPrice := basePrice,
              totalPrice := basePrice * (item.2 : Rat) }

/-- The calculateOrderTotal loop over all items: the first throw aborts
the whole batch. -/
def calcLines (db : DB) (clientId : Nat) : List (Nat × Nat) → Except Err (List CalculatedItem)
  | [] => .ok []
  | item :: rest =>
    match calcLine db clientId item with
    | .error e => .error e
    | .ok ci =>
      match calcLines db clientId rest with
      | .error e => .error e
      | .ok cis => .ok (ci :: cis)

/-- Sum of the unrounded per-line totals. -/
def rawTotal (cis : List CalculatedItem) : Rat :=
  (cis.map (fun ci => ci.totalPrice)).sum

/-- calculateOrderTotal from pricing.ts: client must exist, every line
is priced by `calcLine`, and the grand total is rounded to two decimal
places once at the end. -/
def calculateOrderTotal (db : DB) (clientId : Nat) (items : List (Nat × Nat)) :
    Except Err (List CalculatedItem × Rat) :=
  if clientExists db clientId then
    match calcLines db clientId items with
    | .error e => .error e
    | .ok cis => .ok (cis, round2 (rawTotal cis))
  else .error (.notFound "Client not found")

/-- Per-line unit price of createQuote (quotes handler): the product
must exist and be active; the unit price is the custom price whenever a
pricing row exists (no positivity check, no discount), else the base
price. -/
def quoteUnitPrice (db : DB) (clientId productId : Nat) : Except Err Rat :=
  match getProductById db productId with
  | none => .error (.notFound "Product not found or inactive")
  | some product =>
    match findPricing db clientId productId with
    | some cp => .ok cp.custom_price
    | none => .ok product.base_price

/-- The three-step resolution policy exactly as worded in spec section
4.1, as a spec-side definition used to compare the code paths against:
a positive custom price wins; else a positive discount percentage is
applied to the base price; else the base price stands. -/
def specResolvePrice (basePrice : Rat) (row : Option PricingRow) : Rat :=
  match row with
  | some r =>
      if 0 < r.custom_price then r.custom_price
      else if 0 < r.discount_percentage then basePrice * (1 - r.discount_percentage / 100)
      else basePrice
  | none => basePrice

/-- One reported stock-limit violation. -/
structure Violation where
  productId : Nat
  requestedQuantity : Nat
  remainingLimit : Int
  monthlyLimit : Nat
deriving DecidableEq, Repr

/-- The monthly usage sum of validateStockLimits: quantities of the
order items of this client for this product whose parent order was
created at or after the month boundary (the inner join of pricing.ts,
with order ids unique). -/
def usedQuantity (db : DB) (clientId productId : Nat) (monthStart : Int) : Nat :=
  ((db.orderItems.filter (fun oi =>
      decide (oi.product_id = productId) &&
      db.orders.any (fun o =>
        decide (o.id = oi.order_id ∧ o.client_id = clientId ∧ monthStart ≤ o.created_at)))).map
    (fun oi => oi.quantity)).sum

/-- One iteration of the validateStockLimits loop: no pricing row, or a
falsy stock_limit_monthly (null or 0 in JavaScript), skips the line;
otherwise the unclamped remaining allowance is compared against the
requested quantity and a violation reports the clamped remainder. -/
def stockLimitCheck (db : DB) (clientId : Nat) (monthStart : Int) (item : Nat × Nat) :
    Option Violation :=
  match findPricing db clientId item.1 with
  | none => none
  | some row =>
    match row.stock_limit_monthly with
    | none => none
    | some limit =>
      if limit = 0 then none
      else
        let used := usedQuantity db clientId item.1 monthStart
        let remaining : Int := (limit : Int) - (used : Int)
        if remaining < (item.2 : Int) then
          some {
                 productId := item.1,
                 requestedQuantity := item.2,
                 remainingLimit := max 0 remaining,
                 monthlyLimit := limit }
        else none

/-- validateStockLimits from pricing.ts: client must exist; the
violation list collects the per-line checks in order; isValid is the
emptiness of that list. -/
def validateStockLimits (db : DB) (clientId : Nat) (items : List (Nat × Nat))
    (monthStart : Int) : Except Err (Bool × List Violation) :=
  if clientExists db clientId then
    let violations := items.filterMap (stockLimitCheck db clientId monthStart)
    .ok (violations.isEmpty, violations)
  else .error (.notFound "Client not found")

/-- The per-status field updates of updateTransferRequestStatus
(transfers.ts): preparation transitions set prepared_by and prepared_at
and may update quantity_prepared; shipment only may update
quantity_prepared; every other status only moves status and
updated_at. -/
def applyStatusUpdate (t : TransferRequest) (status : TransferStatus) (updatedBy : Nat)
    (quantityPrepared : Option Nat) (now : Int) : TransferRequest :=
  if status = .in_preparation ∨ status = .ready_to_ship then
    { t with
        status := status, updated_at := now,
        prepared_by := some updatedBy, prepared_at := some now,
        quantity_prepared := quantityPrepared.getD t.quantity_prepared }
  else if status = .shipped then
    { t with
        status := status, updated_at := now,
        quantity_prepared := quantityPrepared.getD t.quantity_prepared }
  else
    { t with status := status, updated_at := now }

/-- updateTransferRequestStatus from transfers.ts: transfer and acting
user must exist; there is no check of the current status. -/
def updateTransferRequestStatus (db : DB) (transferId : Nat) (status : TransferStatus)
    (updatedBy : Nat) (quantityPrepared : Option Nat) (now : Int) :
    Except Err (DB × TransferRequest) :=
  match findTransfer db transferId with
  | none => .error (.notFound "Transfer request not found")
  | some t =>
    if userExists db updatedBy then
      let t1 := applyStatusUpdate t status updatedBy quantityPrepared now
      .ok ({ db with transfers := db.transfers.map (fun x => if x.id = transferId then t1 else x) }, t1)
    else .error (.notFound "User not found")

/-- The two stock-ledger mutations of confirmTransferReception, in
source order: first the destination row is incremented (or created with
the next serial id), then the source row — looked up in the already
updated table, as in the source — is decremented floored at zero (and
left absent if absent).  Returns the new stock table and the next
serial id. -/
def applyReceptionStocks (l : List StockRow) (nextId : Nat) (p : Nat)
    (wTo wFrom : Warehouse) (q : Int) : List StockRow × Nat :=
  let step1 :=
    match findStockL l p wTo with
    | some s => (setStockQuantity l s.sid (s.quantity + q), nextId)
    | none => (l ++ [{ sid := nextId, product_id := p, warehouse := wTo, quantity := q }], nextId + 1)
  match findStockL step1.1 p wFrom with
  | some s => (setStockQuantity step1.1 s.sid (max 0 (s.quantity - q)), step1.2)
  | none => step1

/-- confirmTransferReception from transfers.ts: the transfer must exist
and be in shipped status and the receiving user must exist; then the
transfer becomes received, destination stock is incremented or created,
and source stock is decremented floored at zero. -/
def confirmTransferReception (db : DB) (transferId receivedBy : Nat)
    (quantityReceived : Int) (now : Int) : Except Err (DB × TransferRequest) :=
  match findTransfer db transferId with
  | none => .error (.notFound "Transfer request not found")
  | some transfer =>
    if transfer.status = .shipped then
      if userExists db receivedBy then
        let t1 := { transfer with
                    status := .received,
                    received_by := some receivedBy,
                    received_at := some now,
                    updated_at := now }
        let r := applyReceptionStocks db.stocks db.nextStockId
                   transfer.product_id transfer.to_warehouse transfer.from_warehouse
                   quantityReceived
        .ok ({ db with transfers := db.transfers.map (fun x => if x.id = transferId then t1 else x), stocks := r.1, nextStockId := r.2 }, t1)
      else .error (.notFound "User not found")
    else .error (.precondition "Transfer request must be in shipped status to be received")

/-- The store state after a reception attempt: the new store on
success, the unchanged store on error (a thrown error happens before
any write in the source). -/
def stateAfterReception (db : DB) (transferId receivedBy : Nat)
    (quantityReceived : Int) (now : Int) : DB :=
  match confirmTransferReception db transferId receivedBy quantityReceived now with
  | .ok (db1, _) => db1
  | .error _ => db

/-- updateProductStock from the products handler: the product must
exist and be active; the (product, warehouse) row is set to the given
quantity, or created if absent. -/
def updateProductStock (db : DB) (productId : Nat) (warehouse : Warehouse)
    (quantity : Int) : Except Err (DB × StockRow) :=
  match getProductById db productId with
  | none => .error (.notFound "Product not found or inactive")
  | some _ =>
    match findStock db productId warehouse with
    | some s =>
        .ok ({ db with stocks := db.stocks.map (fun r =>
                 if pwPred productId warehouse r then { r with quantity := quantity } else r) },
              { s with quantity := quantity })
    | none =>
        let s1 : StockRow := {
          sid := db.nextStockId, product_id := productId,
          warehouse := warehouse, quantity := quantity }
        .ok ({ db with stocks := db.stocks ++ [s1], nextStockId := db.nextStockId + 1 }, s1)

/-- Boolean success test for a handler result. -/
def exceptIsOk {ε α : Type} : Except ε α → Bool
  | .ok _ => true
  | .error _ => false

/-- Invariant of spec section 3: every stock quantity is
non-negative. -/
def StockNonneg (db : DB) : Prop :=
  ∀ s ∈ db.stocks, 0 ≤ s.quantity

end Konipa

namespace Konipa

/-- A product used by the concrete test stores: id 1, base price 200,
active. -/
def exProd : Product :=
  { pid := 1, base_price := 200, is_active := true }

/-- A pricing row with custom_price 0 and discount_percentage 25 — the
zero-custom-price shape that separates the code paths. -/
def exRowZero : PricingRow :=
  { client_id := 1, product_id := 1, custom_price := 0,
    discount_percentage := 25, stock_limit_monthly := none }

/-- Store with client 1, product `exProd` and the zero-custom-price
row `exRowZero`. -/
def exDB1 : DB :=
  { clients := [1], users := [1], products := [exProd],
    pricing := [exRowZero], stocks := [], nextStockId := 1,
    transfers := [], orders := [], orderItems := [] }

/-- A pricing row with a positive custom price 90 and discount 50. -/
def exRowPos : PricingRow :=
  { client_id := 1, product_id := 1, custom_price := 90,
    discount_percentage := 50, stock_limit_monthly := none }

/-- Store with client 1, product `exProd` and the positive custom
price row `exRowPos`. -/
def exDB2 : DB :=
  { clients := [1], users := [1], products := [exProd],
    pricing := [exRowPos], stocks := [], nextStockId := 1,
    transfers := [], orders := [], orderItems := [] }

/-- An inactive product: id 1, base price 100, deactivated. -/
def exProdInactive : Product :=
  { pid := 1, base_price := 100, is_active := false }

/-- Store with client 1 and only the inactive product. -/
def exDB6 : DB :=
  { clients := [1], users := [], products := [exProdInactive],
    pricing := [], stocks := [], nextStockId := 1,
    transfers := [], orders := [], orderItems := [] }

/-- A pricing row for (client 1, product 1) carrying a monthly stock
limit of 100. -/
def exRowLimit : PricingRow :=
  { client_id := 1, product_id := 1, custom_price := 100,
    discount_percentage := 0, stock_limit_monthly := some 100 }

/-- Store for the stock-limit validator: client 1 has already consumed
60 units of product 1 this month (order 1 created at time 5, month
boundary 0). -/
def exDB3 : DB :=
  { clients := [1], users := [1], products := [exProd],
    pricing := [exRowLimit], stocks := [], nextStockId := 1,
    transfers := [],
    orders := [{ id := 1, client_id := 1, created_at := 5 }],
    orderItems := [{ order_id := 1, product_id := 1, quantity := 60 }] }

/-- A pending transfer of product 1 from la_villette to ibn_tachfine. -/
def exTransfer : TransferRequest :=
  { id := 1, order_id := 1, product_id := 1,
    from_warehouse := .la_villette, to_warehouse := .ibn_tachfine,
    quantity_requested := 10, quantity_prepared := 0,
    status := .pending, requested_by := 1,
    prepared_by := none, received_by := none,
    requested_at := 0, prepared_at := none, received_at := none,
    created_at := 0, updated_at := 0 }

/-- Store with user 1 and the pending transfer `exTransfer`. -/
def exDB4 : DB :=
  { clients := [1], users := [1], products := [exProd], pricing := [],
    stocks := [], nextStockId := 1, transfers := [exTransfer],
    orders := [], orderItems := [] }

/-- A transfer already in received status. -/
def exTransferReceived : TransferRequest :=
  { exTransfer with status := .received }

/-- Store with user 1 and the received transfer. -/
def exDB10 : DB :=
  { exDB4 with transfers := [exTransferReceived] }

/-- The shipped version of `exTransfer`. -/
def exTransferShipped : TransferRequest :=
  { exTransfer with status := .shipped }

/-- Source stock: 100 units of product 1 at la_villette. -/
def exStockSrc : StockRow :=
  { sid := 1, product_id := 1, warehouse := .la_villette, quantity := 100 }

/-- Destination stock: 25 units of product 1 at ibn_tachfine. -/
def exStockDst : StockRow :=
  { sid := 2, product_id := 1, warehouse := .ibn_tachfine, quantity := 25 }

/-- Store with both stock rows and the shipped transfer. -/
def exDB5 : DB :=
  { clients := [1], users := [1], products := [exProd], pricing := [],
    stocks := [exStockSrc, exStockDst], nextStockId := 3,
    transfers := [exTransferShipped], orders := [], orderItems := [] }

/-- The priced line the calculator produces for (client 1, product 1,
quantity 2) in `exDB1`. -/
def exCalc1 : CalculatedItem :=
  { productId := 1, quantity := 2, basePrice := 200,
    customPrice := some 0, discountPercentage := some 25,
    finalPrice := 200 * (1 - 25 / 100),
    totalPrice := 200 * (1 - 25 / 100) * (2 : Rat) }

/-- The received transfer record produced by the concrete reception. -/
def exT1 : TransferRequest :=
  { exTransferShipped with
    status := .received, received_by := some 1,
    received_at := some 7, updated_at := 7 }

/-- C1 counterexample: in `exDB1` the pricing row for (client 1,
product 1) has custom_price 0 and discount_percentage 25 on base price
200, so the three-step policy of the claim demands
200 * (1 - 25/100) = 150; getProductPriceForClient instead returns
finalPrice 0 (the custom price, without the positivity check). -/
theorem getProductPriceForClient_policy_cex :
    findPricing exDB1 1 1 = some exRowZero
    ∧ exRowZero.custom_price = 0
    ∧ exRowZero.discount_percentage = 25
    ∧ (getProductPriceForClient exDB1 1 1).map (fun r => r.finalPrice) = Except.ok 0
    ∧ specResolvePrice exProd.base_price (findPricing exDB1 1 1) = 150
    ∧ (0 : Rat) ≠ 150 := by
  refine ⟨rfl, rfl, rfl, rfl, ?_, by norm_num⟩
  show specResolvePrice 200 (findPricing exDB1 1 1) = 150
  norm_num [specResolvePrice, findPricing, exDB1, exRowZero]

/-- C1 (amended): the per-line resolution inside calculateOrderTotal
follows the three-step policy of spec section 4.1, while
getProductPriceForClient returns the custom price whenever a pricing
row exists (regardless of positivity and ignoring the discount) and the
base price otherwise. -/
theorem calcLine_policy_getPrice_custom (db : DB) (c p q : Nat) (prod : Product)
    (hp : findProduct db p = some prod) (ha : getProductById db p = some prod) :
    (calcLine db c (p, q)).map (fun ci => ci.finalPrice) =
        Except.ok (specResolvePrice prod.base_price (findPricing db c p))
    ∧ (getProductPriceForClient db p c).map (fun r => r.finalPrice) =
        Except.ok (match findPricing db c p with
                   | some row => row.custom_price
                   | none => prod.base_price) := by
  constructor
  · unfold calcLine
    rw [hp]
    cases hf : findPricing db c p with
    | none => simp only [hf, specResolvePrice, Except.map]
    | some row => simp only [hf, specResolvePrice, Except.map]
  · unfold getProductPriceForClient
    rw [ha]
    cases hf : findPricing db c p with
    | none => simp only [hf, Except.map]
    | some row => simp only [hf, Except.map]

/-- Witness for the amended C1 theorem at the concrete store. -/
theorem calcLine_policy_getPrice_custom_witness :
    (calcLine exDB1 1 (1, 2)).map (fun ci => ci.finalPrice) =
        Except.ok (specResolvePrice exProd.base_price (findPricing exDB1 1 1))
    ∧ (getProductPriceForClient exDB1 1 1).map (fun r => r.finalPrice) =
        Except.ok (match findPricing exDB1 1 1 with
                   | some row => row.custom_price
                   | none => exProd.base_price) :=
  calcLine_policy_getPrice_custom exDB1 1 1 2 exProd rfl rfl

/-- C2 counterexample: in `exDB1` the order-total calculator prices
(client 1, product 1) at 150 (discount applied, custom price 0 not
positive) while quote creation prices the same pair at 0 (the custom
price, unconditionally) — orders and quotes are not priced
identically. -/
theorem order_quote_price_cex :
    (calcLine exDB1 1 (1, 1)).map (fun ci => ci.finalPrice) = Except.ok 150
    ∧ quoteUnitPrice exDB1 1 1 = Except.ok 0
    ∧ (150 : Rat) ≠ 0 := by
  refine ⟨?_, rfl, by norm_num⟩
  show Except.ok (200 * (1 - 25 / 100) : Rat) = _
  norm_num

/-- C2 (amended): quote creation prices a line exactly as
getProductPriceForClient (custom price whenever a pricing row exists,
else base price); the order-total calculator agrees with both whenever
the pricing row is absent or its custom price is positive. -/
theorem quote_price_agreement (db : DB) (c p q : Nat) (prod : Product)
    (hp : findProduct db p = some prod) (ha : getProductById db p = some prod)
    (h : findPricing db c p = none ∨
         ∃ row, findPricing db c p = some row ∧ 0 < row.custom_price) :
    quoteUnitPrice db c p = (getProductPriceForClient db p c).map (fun r => r.finalPrice)
    ∧ (calcLine db c (p, q)).map (fun ci => ci.finalPrice) = quoteUnitPrice db c p := by
  constructor
  · unfold quoteUnitPrice getProductPriceForClient
    rw [ha]
    cases hf : findPricing db c p with
    | none => simp only [Except.map]
    | some row => simp only [Except.map]
  · unfold calcLine quoteUnitPrice
    rw [hp, ha]
    rcases h with hnone | ⟨row, hrow, hpos⟩
    · simp only [hnone, Except.map]
    · simp only [hrow, Except.map, if_pos hpos]

/-- Witness for the amended C2 theorem at the positive-custom-price
store. -/
theorem quote_price_agreement_witness :
    quoteUnitPrice exDB2 1 1 = (getProductPriceForClient exDB2 1 1).map (fun r => r.finalPrice)
    ∧ (calcLine exDB2 1 (1, 3)).map (fun ci => ci.finalPrice) = quoteUnitPrice exDB2 1 1 :=
  quote_price_agreement exDB2 1 1 3 exProd rfl rfl
    (Or.inr ⟨exRowPos, rfl, by norm_num [exRowPos]⟩)

/-- calcLine succeeds exactly when the product row exists (active or
not), and any error it produces is a NotFound error. -/
theorem calcLine_ok_iff (db : DB) (c : Nat) (it : Nat × Nat) :
    (exceptIsOk (calcLine db c it) = false ↔ findProduct db it.1 = none)
    ∧ (∀ e, calcLine db c it = Except.error e → ∃ m, e = Err.notFound m) := by
  constructor
  · cases hp : findProduct db it.1 with
    | none => simp [calcLine, hp, exceptIsOk]
    | some prod =>
      cases hf : findPricing db c it.1 with
      | none => simp [calcLine, hp, hf, exceptIsOk]
      | some row => simp [calcLine, hp, hf, exceptIsOk]
  · intro e he
    cases hp : findProduct db it.1 with
    | none =>
      unfold calcLine at he
      rw [hp] at he
      exact ⟨"Product not found", by injection he with h; rw [h.symm]⟩
    | some prod =>
      unfold calcLine at he
      rw [hp] at he
      cases hf : findPricing db c it.1 <;> rw [hf] at he <;> simp at he

/-- The loop of calculateOrderTotal fails exactly when some requested
product id has no product row, and all its errors are NotFound. -/
theorem calcLines_ok_iff (db : DB) (c : Nat) (items : List (Nat × Nat)) :
    (exceptIsOk (calcLines db c items) = false ↔ ∃ it ∈ items, findProduct db it.1 = none)
    ∧ (∀ e, calcLines db c items = Except.error e → ∃ m, e = Err.notFound m) := by
  induction items with
  | nil => simp [calcLines, exceptIsOk]
  | cons it rest ih =>
    cases hl : calcLine db c it with
    | error e =>
      have hnone : findProduct db it.1 = none := by
        have := (calcLine_ok_iff db c it).1
        simp [hl, exceptIsOk] at this
        exact this
      constructor
      · simp [calcLines, hl, exceptIsOk, hnone]
      · intro e1 he1
        simp only [calcLines, hl] at he1
        injection he1 with h
        exact h ▸ (calcLine_ok_iff db c it).2 e hl
    | ok ci =>
      have hsome : findProduct db it.1 ≠ none := by
        intro hn
        have := (calcLine_ok_iff db c it).1.2 hn
        rw [hl] at this
        simp [exceptIsOk] at this
      cases hr : calcLines db c rest with
      | error e =>
        constructor
        · simp only [calcLines, hl, hr, exceptIsOk, List.mem_cons]
          constructor
          · intro _
            exact ⟨_, Or.inr ((ih.1.mp (by simp [hr, exceptIsOk])).choose_spec.1),
                   (ih.1.mp (by simp [hr, exceptIsOk])).choose_spec.2⟩
          · intro _; trivial
        · intro e1 he1
          simp only [calcLines, hl, hr] at he1
          injection he1 with h
          exact h ▸ ih.2 e hr
      | ok cis =>
        constructor
        · simp only [calcLines, hl, hr, exceptIsOk, List.mem_cons]
          constructor
          · intro h; cases h
          · rintro ⟨x, hx | hx, hnone⟩
            · exact absurd (hx ▸ hnone) hsome
            · have : exceptIsOk (calcLines db c rest) = false := ih.1.mpr ⟨x, hx, hnone⟩
              rw [hr] at this
              simp [exceptIsOk] at this
        · intro e1 he1
          simp only [calcLines, hl, hr] at he1
          exact Except.noConfusion he1

/-- C6 counterexample: in `exDB6` product 1 exists but is inactive, and
calculateOrderTotal nevertheless prices it at its base price instead of
failing with NotFound. -/
theorem priceLineItems_inactive_cex :
    (findProduct exDB6 1).map (fun pr => pr.is_active) = some false
    ∧ exceptIsOk (calculateOrderTotal exDB6 1 [(1, 2)]) = true := by
  exact ⟨rfl, rfl⟩

/-- C6 (amended): with an existing client, calculateOrderTotal fails
exactly when some requested product id has no product row at all — a
deactivated product is priced like an active one — and every failure is
a NotFound error carrying no partial pricing result. -/
theorem calculateOrderTotal_missing_product (db : DB) (c : Nat)
    (items : List (Nat × Nat)) (hc : clientExists db c = true) :
    (exceptIsOk (calculateOrderTotal db c items) = false ↔
      ∃ it ∈ items, findProduct db it.1 = none)
    ∧ (∀ e, calculateOrderTotal db c items = Except.error e → ∃ m, e = Err.notFound m) := by
  constructor
  · rw [← (calcLines_ok_iff db c items).1]
    unfold calculateOrderTotal
    rw [hc]
    cases h : calcLines db c items <;> simp [exceptIsOk]
  · intro e he
    unfold calculateOrderTotal at he
    rw [hc] at he
    cases h : calcLines db c items with
    | error e1 =>
      rw [h] at he
      injection he with h1
      exact h1 ▸ (calcLines_ok_iff db c items).2 e1 h
    | ok cis => rw [h] at he; simp at he

/-- Witness for the amended C6 theorem: product 2 is absent from
`exDB6`, so the batch fails. -/
theorem calculateOrderTotal_missing_product_witness :
    (exceptIsOk (calculateOrderTotal exDB6 1 [(2, 1)]) = false ↔
      ∃ it ∈ [((2 : Nat), (1 : Nat))], findProduct exDB6 it.1 = none)
    ∧ (∀ e, calculateOrderTotal exDB6 1 [(2, 1)] = Except.error e →
        ∃ m, e = Err.notFound m) :=
  calculateOrderTotal_missing_product exDB6 1 [(2, 1)] rfl

/-- Concrete run matching the example of spec section 8: monthly limit
100, 60 consumed this month, 50 more requested, gives one violation
with remainingLimit 40. -/
theorem validateStockLimits_concrete :
    validateStockLimits exDB3 1 [(1, 50)] 0 =
      Except.ok (false,
        [{ productId := 1, requestedQuantity := 50,
           remainingLimit := 40, monthlyLimit := 100 }]) := by
  rfl

/-- C3: with an existing client, the validator returns ok with isValid
the emptiness of the violation list (third and later conjuncts
characterise each line: a missing pricing row or a falsy monthly limit
is skipped, and a configured limit yields a violation exactly when the
requested quantity exceeds the unclamped remainder
monthlyLimit - usedQuantity, with the clamped remainder reported). -/
theorem validateStockLimits_spec (db : DB) (c : Nat) (items : List (Nat × Nat))
    (ms : Int) (hc : clientExists db c = true) :
    validateStockLimits db c items ms =
      Except.ok ((items.filterMap (stockLimitCheck db c ms)).isEmpty,
                 items.filterMap (stockLimitCheck db c ms))
    ∧ (∀ b v, validateStockLimits db c items ms = Except.ok (b, v) →
        (b = true ↔ v = []))
    ∧ (∀ p q, findPricing db c p = none → stockLimitCheck db c ms (p, q) = none)
    ∧ (∀ p q row, findPricing db c p = some row →
        (row.stock_limit_monthly = none ∨ row.stock_limit_monthly = some 0) →
        stockLimitCheck db c ms (p, q) = none)
    ∧ (∀ p q row limit, findPricing db c p = some row →
        row.stock_limit_monthly = some limit → limit ≠ 0 →
        stockLimitCheck db c ms (p, q) =
          (if (limit : Int) - (usedQuantity db c p ms : Int) < (q : Int)
           then some { productId := p, requestedQuantity := q,
                       remainingLimit := max 0 ((limit : Int) - (usedQuantity db c p ms : Int)),
                       monthlyLimit := limit }
           else none)) := by
  refine ⟨?_, ?_, ?_, ?_, ?_⟩
  · simp only [validateStockLimits, hc, if_true]
  · intro b v h
    simp only [validateStockLimits, hc, if_true] at h
    injection h with h1
    have hb : (items.filterMap (stockLimitCheck db c ms)).isEmpty = b :=
      congrArg Prod.fst h1
    have hv : items.filterMap (stockLimitCheck db c ms) = v :=
      congrArg Prod.snd h1
    rw [← hb, ← hv]
    cases items.filterMap (stockLimitCheck db c ms) <;> simp [List.isEmpty]
  · intro p q h
    simp [stockLimitCheck, h]
  · intro p q row h hd
    rcases hd with hd | hd <;> simp [stockLimitCheck, h, hd]
  · intro p q row limit h hlim hne
    simp [stockLimitCheck, h, hlim, hne]

/-- Witness for C3 at the concrete store `exDB3`. -/
theorem validateStockLimits_spec_witness :
    validateStockLimits exDB3 1 [(1, 50)] 0 =
      Except.ok ((([((1 : Nat), (50 : Nat))]).filterMap (stockLimitCheck exDB3 1 0)).isEmpty,
                 ([((1 : Nat), (50 : Nat))]).filterMap (stockLimitCheck exDB3 1 0)) :=
  (validateStockLimits_spec exDB3 1 [(1, 50)] 0 rfl).1

/-- The status field of an applied status update is always the target
status. -/
theorem applyStatusUpdate_status (t : TransferRequest) (st : TransferStatus)
    (u : Nat) (qp : Option Nat) (now : Int) :
    (applyStatusUpdate t st u qp now).status = st := by
  unfold applyStatusUpdate
  split
  · rfl
  · split <;> rfl

/-- C4: reception confirmation succeeds only from shipped status; on an
existing transfer in any other status it fails with the precondition
error and the store (every stock row and the transfer record) is left
unchanged. -/
theorem confirmReception_requires_shipped (db : DB) (tid u : Nat) (q now : Int)
    (t : TransferRequest) (ht : findTransfer db tid = some t) :
    (t.status ≠ TransferStatus.shipped →
      confirmTransferReception db tid u q now =
        Except.error (Err.precondition
          "Transfer request must be in shipped status to be received")
      ∧ stateAfterReception db tid u q now = db)
    ∧ (∀ db1 t1, confirmTransferReception db tid u q now = Except.ok (db1, t1) →
        t.status = TransferStatus.shipped) := by
  constructor
  · intro hne
    have herr : confirmTransferReception db tid u q now =
        Except.error (Err.precondition
          "Transfer request must be in shipped status to be received") := by
      unfold confirmTransferReception
      rw [ht]
      simp [hne]
    refine ⟨herr, ?_⟩
    unfold stateAfterReception
    rw [herr]
  · intro db1 t1 hok
    by_cases hs : t.status = TransferStatus.shipped
    · exact hs
    · have herr : confirmTransferReception db tid u q now =
          Except.error (Err.precondition
            "Transfer request must be in shipped status to be received") := by
        unfold confirmTransferReception
        rw [ht]
        simp [hs]
      rw [herr] at hok
      exact Except.noConfusion hok

/-- Witness for C4: confirming reception of the pending transfer of
`exDB4` fails with the precondition error and leaves the store
untouched. -/
theorem confirmReception_requires_shipped_witness :
    confirmTransferReception exDB4 1 1 5 0 =
      Except.error (Err.precondition
        "Transfer request must be in shipped status to be received")
    ∧ stateAfterReception exDB4 1 1 5 0 = exDB4 :=
  (confirmReception_requires_shipped exDB4 1 1 5 0 exTransfer rfl).1 (by decide)

/-- C9: a successful status update returns the stored record with the
target status and fresh updated_at; shipment keeps prepared_by and
prepared_at while updating quantity_prepared when supplied; only the
preparation transitions set prepared_by and prepared_at; every other
column is unchanged. -/
theorem updateTransferStatus_frame (db : DB) (tid : Nat) (st : TransferStatus)
    (u : Nat) (qp : Option Nat) (now : Int) (t : TransferRequest)
    (ht : findTransfer db tid = some t) (hu : userExists db u = true) :
    exceptIsOk (updateTransferRequestStatus db tid st u qp now) = true
    ∧ (∀ db1 t1, updateTransferRequestStatus db tid st u qp now = Except.ok (db1, t1) →
        t1.status = st ∧ t1.updated_at = now
        ∧ (st = TransferStatus.shipped →
            t1.quantity_prepared = qp.getD t.quantity_prepared
            ∧ t1.prepared_by = t.prepared_by ∧ t1.prepared_at = t.prepared_at)
        ∧ (st = TransferStatus.in_preparation ∨ st = TransferStatus.ready_to_ship →
            t1.prepared_by = some u ∧ t1.prepared_at = some now
            ∧ t1.quantity_prepared = qp.getD t.quantity_prepared)
        ∧ (st = TransferStatus.pending ∨ st = TransferStatus.received
             ∨ st = TransferStatus.cancelled →
            t1.prepared_by = t.prepared_by ∧ t1.prepared_at = t.prepared_at
            ∧ t1.quantity_prepared = t.quantity_prepared)
        ∧ t1.id = t.id ∧ t1.order_id = t.order_id ∧ t1.product_id = t.product_id
        ∧ t1.from_warehouse = t.from_warehouse ∧ t1.to_warehouse = t.to_warehouse
        ∧ t1.quantity_requested = t.quantity_requested
        ∧ t1.requested_by = t.requested_by ∧ t1.received_by = t.received_by
        ∧ t1.requested_at = t.requested_at ∧ t1.received_at = t.received_at
        ∧ t1.created_at = t.created_at) := by
  have hres : updateTransferRequestStatus db tid st u qp now =
      Except.ok ({ db with transfers := db.transfers.map (fun x => if x.id = tid then applyStatusUpdate t st u qp now else x) }, applyStatusUpdate t st u qp now) := by
    unfold updateTransferRequestStatus
    rw [ht]
    simp [hu]
  constructor
  · rw [hres]; rfl
  · intro db1 t1 h
    rw [hres] at h
    injection h with h1
    have ht1 : applyStatusUpdate t st u qp now = t1 := congrArg Prod.snd h1
    rw [← ht1]
    cases st <;> simp [applyStatusUpdate]

/-- Witness for C9: shipping the pending transfer of `exDB4` with a
supplied prepared quantity. -/
theorem updateTransferStatus_frame_witness :
    exceptIsOk (updateTransferRequestStatus exDB4 1 TransferStatus.shipped 1 (some 4) 99) = true :=
  (updateTransferStatus_frame exDB4 1 TransferStatus.shipped 1 (some 4) 99 exTransfer rfl rfl).1

/-- C10: updateTransferRequestStatus checks no transition legality: for
an existing transfer and user every target status is accepted whatever
the current status, and every failure is a NotFound error for a missing
transfer or missing user (never a precondition error). -/
theorem updateTransferStatus_no_guard (db : DB) (tid : Nat) (st : TransferStatus)
    (u : Nat) (qp : Option Nat) (now : Int) :
    (∀ t, findTransfer db tid = some t → userExists db u = true →
       exceptIsOk (updateTransferRequestStatus db tid st u qp now) = true
       ∧ ∀ db1 t1, updateTransferRequestStatus db tid st u qp now = Except.ok (db1, t1) →
           t1.status = st)
    ∧ (∀ e, updateTransferRequestStatus db tid st u qp now = Except.error e →
        (∃ m, e = Err.notFound m)
        ∧ (findTransfer db tid = none ∨ userExists db u = false)) := by
  constructor
  · intro t ht hu
    have hres : updateTransferRequestStatus db tid st u qp now =
        Except.ok ({ db with transfers := db.transfers.map (fun x => if x.id = tid then applyStatusUpdate t st u qp now else x) }, applyStatusUpdate t st u qp now) := by
      unfold updateTransferRequestStatus
      rw [ht]
      simp [hu]
    refine ⟨by rw [hres]; rfl, ?_⟩
    intro db1 t1 h
    rw [hres] at h
    injection h with h1
    have ht1 : applyStatusUpdate t st u qp now = t1 := congrArg Prod.snd h1
    rw [← ht1]
    exact applyStatusUpdate_status t st u qp now
  · intro e he
    cases ht : findTransfer db tid with
    | none =>
      unfold updateTransferRequestStatus at he
      rw [ht] at he
      injection he with h
      exact ⟨⟨"Transfer request not found", h.symm⟩, Or.inl rfl⟩
    | some t =>
      cases hu : userExists db u with
      | true =>
        unfold updateTransferRequestStatus at he
        rw [ht] at he
        simp [hu] at he
      | false =>
        unfold updateTransferRequestStatus at he
        rw [ht] at he
        simp [hu] at he
        exact ⟨⟨"User not found", he.symm⟩, Or.inr rfl⟩

/-- Witness for C10: a received transfer is happily moved back to
shipped. -/
theorem updateTransferStatus_no_guard_witness :
    exceptIsOk (updateTransferRequestStatus exDB10 1 TransferStatus.shipped 1 none 7) = true
    ∧ ∀ db1 t1, updateTransferRequestStatus exDB10 1 TransferStatus.shipped 1 none 7 =
        Except.ok (db1, t1) → t1.status = TransferStatus.shipped :=
  (updateTransferStatus_no_guard exDB10 1 TransferStatus.shipped 1 none 7).1
    exTransferReceived rfl rfl

/-- Updating a quantity by stock id never changes which rows match a
(product, warehouse) lookup. -/
theorem pwPred_setQty (p : Nat) (w : Warehouse) (sid : Nat) (q : Int) (r : StockRow) :
    pwPred p w (setQty sid q r) = pwPred p w r := by
  unfold setQty
  split <;> rfl

/-- A found stock row keeps being found, with the new quantity, after
the update that targets its id. -/
theorem findStockL_map_setQty_found (l : List StockRow) (p : Nat) (w : Warehouse)
    (s : StockRow) (q : Int) (h : findStockL l p w = some s) :
    findStockL (setStockQuantity l s.sid q) p w = some { s with quantity := q } := by
  induction l with
  | nil => simp [findStockL] at h
  | cons hd tl ih =>
    by_cases hp : pwPred p w hd = true
    · have hs : hd = s := by
        unfold findStockL at h
        rw [List.find?_cons_of_pos _ hp] at h
        injection h
      subst hs
      unfold findStockL setStockQuantity
      rw [List.map_cons]
      have hset : setQty hd.sid q hd = { hd with quantity := q } := by
        unfold setQty
        rw [if_pos rfl]
      rw [hset]
      exact List.find?_cons_of_pos _ hp
    · have hp1 : ¬ pwPred p w hd = true := hp
      unfold findStockL at h
      rw [List.find?_cons_of_neg _ hp1] at h
      unfold findStockL setStockQuantity at ih ⊢
      rw [List.map_cons]
      rw [List.find?_cons_of_neg]
      · exact ih h
      · rw [pwPred_setQty]
        exact hp1

/-- A found stock row is untouched by an update targeting a different
stock id. -/
theorem findStockL_map_setQty_ne (l : List StockRow) (p : Nat) (w : Warehouse)
    (s : StockRow) (sid : Nat) (q : Int) (h : findStockL l p w = some s)
    (hne : s.sid ≠ sid) :
    findStockL (setStockQuantity l sid q) p w = some s := by
  induction l with
  | nil => simp [findStockL] at h
  | cons hd tl ih =>
    by_cases hp : pwPred p w hd = true
    · have hs : hd = s := by
        unfold findStockL at h
        rw [List.find?_cons_of_pos _ hp] at h
        injection h
      subst hs
      unfold findStockL setStockQuantity
      rw [List.map_cons]
      have hset : setQty sid q hd = hd := by
        unfold setQty
        rw [if_neg hne]
      rw [hset]
      exact List.find?_cons_of_pos _ hp
    · have hp1 : ¬ pwPred p w hd = true := hp
      unfold findStockL at h
      rw [List.find?_cons_of_neg _ hp1] at h
      unfold findStockL setStockQuantity at ih ⊢
      rw [List.map_cons]
      rw [List.find?_cons_of_neg]
      · exact ih h
      · rw [pwPred_setQty]
        exact hp1

/-- An absent (product, warehouse) pair stays absent across a quantity
update. -/
theorem findStockL_map_setQty_none (l : List StockRow) (p : Nat) (w : Warehouse)
    (sid : Nat) (q : Int) (h : findStockL l p w = none) :
    findStockL (setStockQuantity l sid q) p w = none := by
  unfold findStockL at h ⊢
  rw [List.find?_eq_none] at h ⊢
  intro a ha
  rw [setStockQuantity, List.mem_map] at ha
  obtain ⟨b, hb, rfl⟩ := ha
  intro hcontra
  rw [pwPred_setQty] at hcontra
  exact h b hb hcontra

/-- A row found in the front part of an appended table is the overall
find. -/
theorem findStockL_append_some (l l2 : List StockRow) (p : Nat) (w : Warehouse)
    (s : StockRow) (h : findStockL l p w = some s) :
    findStockL (l ++ l2) p w = some s := by
  induction l with
  | nil => simp [findStockL] at h
  | cons hd tl ih =>
    by_cases hp : pwPred p w hd = true
    · unfold findStockL at h ⊢
      rw [List.find?_cons_of_pos _ hp] at h
      rw [List.cons_append, List.find?_cons_of_pos _ hp]
      exact h
    · unfold findStockL at h ih ⊢
      rw [List.find?_cons_of_neg _ hp] at h
      rw [List.cons_append, List.find?_cons_of_neg _ hp]
      exact ih h

/-- When the front part has no matching row, the find continues in the
appended part. -/
theorem findStockL_append_none (l l2 : List StockRow) (p : Nat) (w : Warehouse)
    (h : findStockL l p w = none) :
    findStockL (l ++ l2) p w = findStockL l2 p w := by
  induction l with
  | nil => rfl
  | cons hd tl ih =>
    by_cases hp : pwPred p w hd = true
    · unfold findStockL at h
      rw [List.find?_cons_of_pos _ hp] at h
      exact Option.noConfusion h
    · unfold findStockL at h ih ⊢
      rw [List.find?_cons_of_neg _ hp] at h
      rw [List.cons_append, List.find?_cons_of_neg _ hp]
      exact ih h

/-- A found stock row belongs to the table and matches the
predicate. -/
theorem findStockL_mem (l : List StockRow) (p : Nat) (w : Warehouse)
    (s : StockRow) (h : findStockL l p w = some s) :
    s ∈ l ∧ s.product_id = p ∧ s.warehouse = w := by
  refine ⟨List.mem_of_find?_eq_some h, ?_⟩
  have := List.find?_some h
  unfold pwPred at this
  exact of_decide_eq_true this

/-- The reception stock pipeline: with distinct warehouses, injective
stock ids and a fresh next id, the destination quantity becomes the old
quantity (or zero) plus the received quantity, and the source quantity,
when a source row exists, becomes the old quantity minus the received
quantity floored at zero (an absent source row stays absent). -/
theorem applyReceptionStocks_spec (l : List StockRow) (nextId : Nat) (p : Nat)
    (wTo wFrom : Warehouse) (q : Int)
    (hw : wFrom ≠ wTo)
    (hkey : ∀ a ∈ l, ∀ b ∈ l, a.sid = b.sid → a = b)
    (hfresh : ∀ a ∈ l, a.sid < nextId) :
    (findStockL (applyReceptionStocks l nextId p wTo wFrom q).1 p wTo).map (fun s => s.quantity)
      = some (((findStockL l p wTo).map (fun s => s.quantity)).getD 0 + q)
    ∧ (findStockL (applyReceptionStocks l nextId p wTo wFrom q).1 p wFrom).map (fun s => s.quantity)
      = ((findStockL l p wFrom).map (fun s => s.quantity)).map (fun x => max 0 (x - q)) := by
  cases hdest : findStockL l p wTo with
  | some s =>
    obtain ⟨hsmem, hsp, hsw⟩ := findStockL_mem l p wTo s hdest
    have hified : findStockL (setStockQuantity l s.sid (s.quantity + q)) p wTo
        = some { s with quantity := s.quantity + q } :=
      findStockL_map_setQty_found l p wTo s _ hdest
    cases hsrc : findStockL l p wFrom with
    | some s2 =>
      obtain ⟨hs2mem, hs2p, hs2w⟩ := findStockL_mem l p wFrom s2 hsrc
      have hne : s2 ≠ s := by
        intro hcontra
        apply hw
        rw [← hs2w, hcontra, hsw]
      have hsidne : s2.sid ≠ s.sid := fun hcontra => hne (hkey s2 hs2mem s hsmem hcontra)
      have hsrc1 : findStockL (setStockQuantity l s.sid (s.quantity + q)) p wFrom = some s2 :=
        findStockL_map_setQty_ne l p wFrom s2 s.sid _ hsrc hsidne
      simp only [applyReceptionStocks, hdest, hsrc1]
      constructor
      · have hd2 : findStockL (setStockQuantity (setStockQuantity l s.sid (s.quantity + q))
            s2.sid (max 0 (s2.quantity - q))) p wTo = some { s with quantity := s.quantity + q } :=
          findStockL_map_setQty_ne _ _ _ _ _ _ hified (fun hcontra => hsidne hcontra.symm)
        rw [hd2]
        rfl
      · have hs2f : findStockL (setStockQuantity (setStockQuantity l s.sid (s.quantity + q))
            s2.sid (max 0 (s2.quantity - q))) p wFrom
            = some { s2 with quantity := max 0 (s2.quantity - q) } :=
          findStockL_map_setQty_found _ _ _ _ _ hsrc1
        rw [hs2f]
        rfl
    | none =>
      have hsrc1 : findStockL (setStockQuantity l s.sid (s.quantity + q)) p wFrom = none :=
        findStockL_map_setQty_none l p wFrom s.sid _ hsrc
      simp only [applyReceptionStocks, hdest, hsrc1]
      constructor
      · rw [hified]
        rfl
      · rfl
  | none =>
    have hnew_to : pwPred p wTo
        { sid := nextId, product_id := p, warehouse := wTo, quantity := q } = true := by
      unfold pwPred
      simp
    have hnew_from : pwPred p wFrom
        { sid := nextId, product_id := p, warehouse := wTo, quantity := q } = false := by
      unfold pwPred
      simp only [decide_eq_false_iff_not]
      rintro ⟨-, hcontra⟩
      exact hw hcontra.symm
    have hdest1 : findStockL
        (l ++ [{ sid := nextId, product_id := p, warehouse := wTo, quantity := q }]) p wTo
        = some { sid := nextId, product_id := p, warehouse := wTo, quantity := q } := by
      rw [findStockL_append_none _ _ _ _ hdest]
      exact List.find?_cons_of_pos _ hnew_to
    cases hsrc : findStockL l p wFrom with
    | some s2 =>
      obtain ⟨hs2mem, hs2p, hs2w⟩ := findStockL_mem l p wFrom s2 hsrc
      have happ : findStockL
          (l ++ [{ sid := nextId, product_id := p, warehouse := wTo, quantity := q }]) p wFrom
          = some s2 :=
        findStockL_append_some _ _ _ _ _ hsrc
      have hs2sid : s2.sid ≠ nextId := Nat.ne_of_lt (hfresh s2 hs2mem)
      simp only [applyReceptionStocks, hdest, happ]
      constructor
      · have hdest2 : findStockL (setStockQuantity
            (l ++ [{ sid := nextId, product_id := p, warehouse := wTo, quantity := q }])
            s2.sid (max 0 (s2.quantity - q))) p wTo
            = some { sid := nextId, product_id := p, warehouse := wTo, quantity := q } :=
          findStockL_map_setQty_ne _ _ _ _ _ _ hdest1 (fun hcontra => hs2sid hcontra.symm)
        rw [hdest2]
        simp
      · have hs2f : findStockL (setStockQuantity
            (l ++ [{ sid := nextId, product_id := p, warehouse := wTo, quantity := q }])
            s2.sid (max 0 (s2.quantity - q))) p wFrom
            = some { s2 with quantity := max 0 (s2.quantity - q) } :=
          findStockL_map_setQty_found _ _ _ _ _ happ
        rw [hs2f]
        rfl
    | none =>
      have happ : findStockL
          (l ++ [{ sid := nextId, product_id := p, warehouse := wTo, quantity := q }]) p wFrom
          = none := by
        rw [findStockL_append_none _ _ _ _ hsrc]
        unfold findStockL
        rw [List.find?_cons_of_neg _ (by simp [hnew_from])]
        rfl
      simp only [applyReceptionStocks, hdest, happ]
      constructor
      · rw [hdest1]
        simp
      · rfl

/-- Concrete reception run matching the examples of spec section 8:
receiving 10 units moves destination stock 25 to 35 and source stock
100 to 90, and the transfer becomes received. -/
theorem confirmReception_concrete :
    stockQty (stateAfterReception exDB5 1 1 10 7) 1 Warehouse.ibn_tachfine = some 35
    ∧ stockQty (stateAfterReception exDB5 1 1 10 7) 1 Warehouse.la_villette = some 90
    ∧ (findTransfer (stateAfterReception exDB5 1 1 10 7) 1).map (fun t => t.status)
        = some TransferStatus.received := by
  exact ⟨rfl, rfl, rfl⟩

/-- C5: a successful reception marks the transfer received with
received_by and received_at set, increments (or creates) the
destination stock row by the received quantity, and floors the source
stock row at zero — exceeding recorded source stock is not an error
(the success conclusion holds for every received quantity). -/
theorem confirmReception_success (db : DB) (tid u : Nat) (q now : Int)
    (t : TransferRequest) (ht : findTransfer db tid = some t)
    (hs : t.status = TransferStatus.shipped) (hu : userExists db u = true)
    (hw : t.from_warehouse ≠ t.to_warehouse)
    (hkey : ∀ a ∈ db.stocks, ∀ b ∈ db.stocks, a.sid = b.sid → a = b)
    (hfresh : ∀ a ∈ db.stocks, a.sid < db.nextStockId) :
    exceptIsOk (confirmTransferReception db tid u q now) = true
    ∧ (∀ db1 t1, confirmTransferReception db tid u q now = Except.ok (db1, t1) →
        t1.status = TransferStatus.received
        ∧ t1.received_by = some u
        ∧ t1.received_at = some now
        ∧ stockQty db1 t.product_id t.to_warehouse
            = some ((stockQty db t.product_id t.to_warehouse).getD 0 + q)
        ∧ stockQty db1 t.product_id t.from_warehouse
            = (stockQty db t.product_id t.from_warehouse).map (fun x => max 0 (x - q))) := by
  have hres : confirmTransferReception db tid u q now =
      Except.ok
        ({ db with
            transfers := db.transfers.map (fun x => if x.id = tid then { t with status := TransferStatus.received, received_by := some u, received_at := some now, updated_at := now } else x),
            stocks := (applyReceptionStocks db.stocks db.nextStockId t.product_id t.to_warehouse t.from_warehouse q).1,
            nextStockId := (applyReceptionStocks db.stocks db.nextStockId t.product_id t.to_warehouse t.from_warehouse q).2 },
         { t with status := TransferStatus.received, received_by := some u, received_at := some now, updated_at := now }) := by
    unfold confirmTransferReception
    rw [ht]
    simp [hs, hu]
  constructor
  · rw [hres]
    rfl
  · intro db1 t1 h
    rw [hres] at h
    injection h with h1
    have hdb : ({ db with
        transfers := db.transfers.map (fun x => if x.id = tid then { t with status := TransferStatus.received, received_by := some u, received_at := some now, updated_at := now } else x),
        stocks := (applyReceptionStocks db.stocks db.nextStockId t.product_id t.to_warehouse t.from_warehouse q).1,
        nextStockId := (applyReceptionStocks db.stocks db.nextStockId t.product_id t.to_warehouse t.from_warehouse q).2 } : DB) = db1 :=
      congrArg Prod.fst h1
    have htt : ({ t with status := TransferStatus.received, received_by := some u, received_at := some now, updated_at := now } : TransferRequest) = t1 :=
      congrArg Prod.snd h1
    rw [← hdb, ← htt]
    obtain ⟨hA, hB⟩ := applyReceptionStocks_spec db.stocks db.nextStockId
      t.product_id t.to_warehouse t.from_warehouse q hw hkey hfresh
    exact ⟨rfl, rfl, rfl, hA, hB⟩

/-- Witness for C5 at the concrete store `exDB5`. -/
theorem confirmReception_success_witness :
    exceptIsOk (confirmTransferReception exDB5 1 1 10 7) = true :=
  (confirmReception_success exDB5 1 1 10 7 exTransferShipped rfl rfl rfl
    (by decide) (by decide) (by decide)).1

/-- Every priced line carries totalPrice = finalPrice * quantity. -/
theorem calcLine_totalPrice (db : DB) (c : Nat) (it : Nat × Nat) (ci : CalculatedItem)
    (h : calcLine db c it = Except.ok ci) :
    ci.totalPrice = ci.finalPrice * (ci.quantity : Rat) := by
  cases hp : findProduct db it.1 with
  | none =>
    unfold calcLine at h
    rw [hp] at h
    exact Except.noConfusion h
  | some prod =>
    unfold calcLine at h
    rw [hp] at h
    cases hf : findPricing db c it.1 <;> rw [hf] at h <;>
      injection h with h1 <;> rw [← h1]

/-- The pricing loop distributes over list concatenation. -/
theorem calcLines_append (db : DB) (c : Nat) (xs ys : List (Nat × Nat))
    (cis1 cis2 : List CalculatedItem)
    (h1 : calcLines db c xs = Except.ok cis1) (h2 : calcLines db c ys = Except.ok cis2) :
    calcLines db c (xs ++ ys) = Except.ok (cis1 ++ cis2) := by
  induction xs generalizing cis1 with
  | nil =>
    unfold calcLines at h1
    injection h1 with h
    rw [← h]
    simpa using h2
  | cons it rest ih =>
    cases hl : calcLine db c it with
    | error e =>
      unfold calcLines at h1
      rw [hl] at h1
      exact Except.noConfusion h1
    | ok ci =>
      unfold calcLines at h1
      rw [hl] at h1
      cases hr : calcLines db c rest with
      | error e =>
        rw [hr] at h1
        exact Except.noConfusion h1
      | ok cis =>
        rw [hr] at h1
        injection h1 with h
        rw [← h]
        show calcLines db c (it :: (rest ++ ys)) = Except.ok (ci :: cis ++ cis2)
        unfold calcLines
        rw [hl, ih cis hr]
        rfl

/-- The unrounded total distributes over list concatenation. -/
theorem rawTotal_append (a b : List CalculatedItem) :
    rawTotal (a ++ b) = rawTotal a + rawTotal b := by
  unfold rawTotal
  rw [List.map_append, List.sum_append]

/-- C7: with an existing client, the batch total is the single
two-decimal rounding of the exact unrounded sum of per-line totals
(each line being finalPrice * quantity), so pricing two item lists
separately and summing their unrounded totals, then rounding once,
equals pricing the concatenated list. -/
theorem priceLineItems_single_rounding (db : DB) (c : Nat) (xs ys : List (Nat × Nat))
    (cis1 cis2 : List CalculatedItem) (hc : clientExists db c = true)
    (h1 : calcLines db c xs = Except.ok cis1) (h2 : calcLines db c ys = Except.ok cis2) :
    calculateOrderTotal db c xs = Except.ok (cis1, round2 (rawTotal cis1))
    ∧ (∀ ci ∈ cis1, ci.totalPrice = ci.finalPrice * (ci.quantity : Rat))
    ∧ calculateOrderTotal db c (xs ++ ys) =
        Except.ok (cis1 ++ cis2, round2 (rawTotal cis1 + rawTotal cis2)) := by
  refine ⟨?_, ?_, ?_⟩
  · unfold calculateOrderTotal
    rw [hc, h1]
    simp
  · intro ci hci
    induction xs generalizing cis1 with
    | nil =>
      unfold calcLines at h1
      injection h1 with h
      rw [← h] at hci
      exact absurd hci (List.not_mem_nil ci)
    | cons it rest ih =>
      cases hl : calcLine db c it with
      | error e =>
        unfold calcLines at h1
        rw [hl] at h1
        exact Except.noConfusion h1
      | ok ci0 =>
        unfold calcLines at h1
        rw [hl] at h1
        cases hr : calcLines db c rest with
        | error e =>
          rw [hr] at h1
          exact Except.noConfusion h1
        | ok cis =>
          rw [hr] at h1
          injection h1 with h
          rw [← h] at hci
          rcases List.mem_cons.mp hci with hh | hh
          · rw [← hh] at hl
            exact calcLine_totalPrice db c it ci hl
          · exact ih cis hr hh
  · unfold calculateOrderTotal
    rw [hc, calcLines_append db c xs ys cis1 cis2 h1 h2]
    simp [rawTotal_append]

/-- Witness for C7: a one-line batch with the empty list appended. -/
theorem priceLineItems_single_rounding_witness :
    calculateOrderTotal exDB1 1 [(1, 2)] =
      Except.ok ([exCalc1], round2 (rawTotal [exCalc1])) :=
  (priceLineItems_single_rounding exDB1 1 [(1, 2)] [] [exCalc1] [] rfl rfl rfl).1

/-- A quantity update preserves non-negativity when the new value is
non-negative. -/
theorem setStockQuantity_nonneg (l : List StockRow) (sid : Nat) (v : Int)
    (hl : ∀ s ∈ l, 0 ≤ s.quantity) (hv : 0 ≤ v) :
    ∀ s ∈ setStockQuantity l sid v, 0 ≤ s.quantity := by
  intro s hs
  rw [setStockQuantity, List.mem_map] at hs
  obtain ⟨b, hb, rfl⟩ := hs
  unfold setQty
  split
  · exact hv
  · exact hl b hb

/-- The reception stock pipeline preserves non-negativity of every
stock quantity when the received quantity is non-negative. -/
theorem applyReceptionStocks_nonneg (l : List StockRow) (nextId : Nat) (p : Nat)
    (wTo wFrom : Warehouse) (q : Int)
    (hl : ∀ s ∈ l, 0 ≤ s.quantity) (hq : 0 ≤ q) :
    ∀ s ∈ (applyReceptionStocks l nextId p wTo wFrom q).1, 0 ≤ s.quantity := by
  cases hdest : findStockL l p wTo with
  | some s0 =>
    have hstep : ∀ s ∈ setStockQuantity l s0.sid (s0.quantity + q), 0 ≤ s.quantity :=
      setStockQuantity_nonneg l s0.sid (s0.quantity + q) hl
        (add_nonneg (hl s0 (findStockL_mem l p wTo s0 hdest).1) hq)
    cases hsrc : findStockL (setStockQuantity l s0.sid (s0.quantity + q)) p wFrom with
    | some s2 =>
      simp only [applyReceptionStocks, hdest, hsrc]
      exact setStockQuantity_nonneg _ s2.sid _ hstep (le_max_left 0 _)
    | none =>
      simp only [applyReceptionStocks, hdest, hsrc]
      exact hstep
  | none =>
    have hstep : ∀ s ∈ l ++ [({ sid := nextId, product_id := p, warehouse := wTo, quantity := q } : StockRow)], 0 ≤ s.quantity := by
      intro s hs
      rcases List.mem_append.mp hs with hmem | hmem
      · exact hl s hmem
      · rcases List.mem_singleton.mp hmem with rfl
        exact hq
    cases hsrc : findStockL (l ++ [({ sid := nextId, product_id := p, warehouse := wTo, quantity := q } : StockRow)]) p wFrom with
    | some s2 =>
      simp only [applyReceptionStocks, hdest, hsrc]
      exact setStockQuantity_nonneg _ s2.sid _ hstep (le_max_left 0 _)
    | none =>
      simp only [applyReceptionStocks, hdest, hsrc]
      exact hstep

/-- C8: every operation writing stock preserves the invariant that all
stock quantities are non-negative: updateProductStock under its
non-negative input schema, and both stock mutations of a successful
reception under its positive received-quantity schema. -/
theorem stock_nonneg_preserved (db : DB) :
    (∀ p w q db1 s, StockNonneg db → 0 ≤ q →
       updateProductStock db p w q = Except.ok (db1, s) → StockNonneg db1)
    ∧ (∀ tid u q now db1 t1, StockNonneg db → 0 < q →
       confirmTransferReception db tid u q now = Except.ok (db1, t1) → StockNonneg db1) := by
  constructor
  · intro p w q db1 s hinv hq h
    cases hp : getProductById db p with
    | none =>
      unfold updateProductStock at h
      rw [hp] at h
      exact Except.noConfusion h
    | some prod =>
      unfold updateProductStock at h
      rw [hp] at h
      cases hf : findStock db p w with
      | some s0 =>
        rw [hf] at h
        injection h with h1
        have hdb : _ = db1 := congrArg Prod.fst h1
        rw [← hdb]
        intro x hx
        rw [List.mem_map] at hx
        obtain ⟨b, hb, rfl⟩ := hx
        split
        · exact hq
        · exact hinv b hb
      | none =>
        rw [hf] at h
        injection h with h1
        have hdb : _ = db1 := congrArg Prod.fst h1
        rw [← hdb]
        intro x hx
        rcases List.mem_append.mp hx with hmem | hmem
        · exact hinv x hmem
        · rcases List.mem_singleton.mp hmem with rfl
          exact hq
  · intro tid u q now db1 t1 hinv hq h
    cases ht : findTransfer db tid with
    | none =>
      unfold confirmTransferReception at h
      rw [ht] at h
      exact Except.noConfusion h
    | some t =>
      by_cases hs : t.status = TransferStatus.shipped
      · by_cases hu : userExists db u = true
        · have hres : confirmTransferReception db tid u q now =
              Except.ok
                ({ db with
                    transfers := db.transfers.map (fun x => if x.id = tid then { t with status := TransferStatus.received, received_by := some u, received_at := some now, updated_at := now } else x),
                    stocks := (applyReceptionStocks db.stocks db.nextStockId t.product_id t.to_warehouse t.from_warehouse q).1,
                    nextStockId := (applyReceptionStocks db.stocks db.nextStockId t.product_id t.to_warehouse t.from_warehouse q).2 },
                 { t with status := TransferStatus.received, received_by := some u, received_at := some now, updated_at := now }) := by
            unfold confirmTransferReception
            rw [ht]
            simp [hs, hu]
          rw [hres] at h
          injection h with h1
          have hdb : _ = db1 := congrArg Prod.fst h1
          rw [← hdb]
          exact applyReceptionStocks_nonneg db.stocks db.nextStockId
            t.product_id t.to_warehouse t.from_warehouse q hinv (le_of_lt hq)
        · unfold confirmTransferReception at h
          rw [ht] at h
          simp [hs, hu] at h
      · unfold confirmTransferReception at h
        rw [ht] at h
        simp [hs] at h

/-- Witness for C8: the store after the concrete reception run keeps
all stock quantities non-negative. -/
theorem stock_nonneg_preserved_witness :
    StockNonneg (stateAfterReception exDB5 1 1 10 7) :=
  (stock_nonneg_preserved exDB5).2 1 1 10 7 (stateAfterReception exDB5 1 1 10 7) exT1
    (by unfold StockNonneg; decide) (by decide) (by rfl)

end Konipa
